import Mathlib

/-!
Shallow embedding of the NeuralHealth repository (src/medical.py and
src/medical3.py) and proofs about its term-extraction heuristic and its
account / analysis-record store operations.

String-handling helpers model the exact Python string primitives the source
uses (str.split() with no argument, str.isupper, str.lower, str.join),
restricted to ASCII casing, which is what the heuristics in the source are
written for.
-/

/-- Model of Python str.split() with no argument: split on runs of
whitespace, dropping empty pieces.  The accumulator holds the current word
reversed. -/
def wordsAux : List Char → List Char → List String
  | [], acc => if acc = [] then [] else [String.mk acc.reverse]
  | c :: cs, acc =>
    if c.isWhitespace then
      if acc = [] then wordsAux cs []
      else String.mk acc.reverse :: wordsAux cs []
    else wordsAux cs (c :: acc)

/-- Python ent.text.split() as used in src/medical.py line 37 and 39. -/
def pySplit (s : String) : List String := wordsAux s.data []

/-- Python str.isupper (ASCII): at least one cased character and no
lower-case character. -/
def pyIsupper (s : String) : Bool :=
  s.data.any (fun c => c.isAlpha) && s.data.all (fun c => !c.isLower)

/-- Python str.lower (ASCII). -/
def pyLower (s : String) : String := String.mk (s.data.map Char.toLower)

/-- Python sep.join(xs). -/
def pyJoin (sep : String) : List String → String
  | [] => ""
  | [x] => x
  | x :: y :: ys => x ++ sep ++ pyJoin sep (y :: ys)

/-- A spaCy entity as the extractor consumes it: its text span and its
label (ent.text, ent.label_). -/
structure Ent where
  text : String
  label : String
deriving DecidableEq

/-- A spaCy noun chunk as the extractor consumes it: the texts of its
tokens (iterated by `for token in chunk`) and its own text span. -/
structure Chunk where
  tokens : List String
  text : String
deriving DecidableEq

/-- The fixed vocabulary of src/medical.py lines 45-47. -/
def medicalVocab : List String :=
  ["pain", "ache", "discomfort", "swelling", "fever",
   "infection", "inflammation", "disease", "syndrome",
   "condition", "symptom", "treatment"]

/-- The entity test of src/medical.py lines 37-39.  The third disjunct reads
ent.text[0], which raises IndexError on empty text; that is modelled with
Except.error. -/
def entKeep (e : Ent) : Except Unit Bool :=
  if (e.label == "ORG" || e.label == "GPE") && (pySplit e.text).any pyIsupper then
    Except.ok true
  else if e.label == "CONDITION" then
    Except.ok true
  else if (pySplit e.text).length ≤ 3 then
    match e.text.data with
    | [] => Except.error ()
    | c :: _ => Except.ok c.isUpper
  else
    Except.ok false

/-- The entity loop of src/medical.py lines 35-40: texts of the entities the
test keeps, in production order; an IndexError anywhere aborts the whole
call. -/
def keptEntities : List Ent → Except Unit (List String)
  | [] => Except.ok []
  | e :: es => do
    let b ← entKeep e
    let rest ← keptEntities es
    Except.ok (if b then e.text :: rest else rest)

/-- The noun-chunk test of src/medical.py lines 43-48: some token of the
chunk, lower-cased, is a word of the fixed vocabulary. -/
def chunkKeep (ch : Chunk) : Bool :=
  ch.tokens.any (fun t => medicalVocab.contains (pyLower t))

/-- Python list(dict.fromkeys(xs)) (line 52): deduplicate keeping each
element at its first occurrence. -/
def dedupFrom (seen : List String) : List String → List String
  | [] => []
  | x :: xs =>
    if seen.contains x then dedupFrom seen xs
    else x :: dedupFrom (x :: seen) xs

/-- extract_medical_keywords of src/medical.py lines 23-52, over the
analyzer output (entity list and noun-chunk list). -/
def extract_medical_keywords (ents : List Ent) (chunks : List Chunk) :
    Except Unit (List String) := do
  let es ← keptEntities ents
  Except.ok (dedupFrom [] (es ++ (chunks.filter chunkKeep).map Chunk.text))

/-- generate_summary of src/medical.py lines 54-58. -/
def generate_summary (keywords : List String) : String :=
  if keywords.isEmpty then
    "No specific medical terms were identified in the input."
  else
    "Based on the analysis, the key medical conditions and symptoms include: "
      ++ pyJoin ", " keywords ++ "."

/-- Total first-character upper-case test, indexing through List.head? as
the claim C10 describes. -/
def pyFirstUpper (s : String) : Bool :=
  match s.data.head? with
  | some c => c.isUpper
  | none => false

/-- Entity filter written from the claim wording (for the refinement
comparison of C3): organization/place class with a fully upper-case token,
or category condition, or at most 3 tokens with an upper-case first
character, the first character taken totally via List.head?. -/
def specEntityKeep (e : Ent) : Bool :=
  ((e.label == "ORG" || e.label == "GPE") && (pySplit e.text).any pyIsupper)
    || e.label == "CONDITION"
    || ((pySplit e.text).length ≤ 3 && pyFirstUpper e.text)

/-- The extractor output as the claim C3 words it: kept entities, then kept
noun phrases, in production order, deduplicated at first occurrence. -/
def specExtract (ents : List Ent) (chunks : List Chunk) : List String :=
  dedupFrom []
    ((ents.filter specEntityKeep).map Ent.text
      ++ (chunks.filter chunkKeep).map Chunk.text)

/-- Concrete analyzer output used to instantiate the C3 theorem. -/
def entsW : List Ent :=
  [⟨"MRI Center", "ORG"⟩, ⟨"Flu", "CONDITION"⟩, ⟨"Boston", "GPE"⟩,
   ⟨"Flu", "CONDITION"⟩, ⟨"Dr Smith", "PERSON"⟩]

/-- Concrete noun chunks used to instantiate the C3 theorem. -/
def chunksW : List Chunk :=
  [⟨["a", "sharp", "Pain"], "a sharp Pain"⟩, ⟨["the", "weather"], "the weather"⟩]

/-- Entity list showing the boundary of C10: empty text with label
CONDITION short-circuits before the first-character test. -/
def entsC10 : List Ent := [⟨"", "CONDITION"⟩]

-- Helper lemmas for the extractor proofs.

/-- A string is the empty literal exactly when its character list is nil. -/
theorem string_eq_empty_iff (s : String) : s = "" ↔ s.data = [] := by
  cases s with
  | mk l =>
    constructor
    · intro h
      rw [h]
    · intro h
      have h2 : l = [] := h
      rw [h2]

/-- On non-empty text the entity test cannot raise and agrees with the
claim-side total filter. -/
theorem entKeep_of_ne (e : Ent) (h : e.text ≠ "") :
    entKeep e = Except.ok (specEntityKeep e) := by
  rcases hd : e.text.data with _ | ⟨c, cs⟩
  · exact absurd ((string_eq_empty_iff e.text).mpr hd) h
  · unfold entKeep specEntityKeep pyFirstUpper pySplit
    rw [hd]
    cases hA : (e.label == "ORG" || e.label == "GPE")
        && (wordsAux (c :: cs) []).any pyIsupper <;>
      cases hB : e.label == "CONDITION" <;>
      by_cases hC : (wordsAux (c :: cs) []).length ≤ 3 <;>
      simp [hA, hB, hC]

/-- An entity raises exactly when its text is empty and its label is not
CONDITION. -/
theorem entKeep_ok_iff (e : Ent) :
    (∃ b, entKeep e = Except.ok b) ↔ (e.text = "" → e.label = "CONDITION") := by
  by_cases h : e.text = ""
  · have hd : e.text.data = [] := (string_eq_empty_iff e.text).mp h
    by_cases hlab : e.label = "CONDITION"
    · constructor
      · intro _ _
        exact hlab
      · intro _
        refine ⟨true, ?_⟩
        unfold entKeep pySplit
        rw [hd]
        simp [wordsAux, hlab]
    · constructor
      · rintro ⟨b, hb⟩
        exfalso
        unfold entKeep pySplit at hb
        rw [hd] at hb
        simp [wordsAux, hlab] at hb
      · intro hc
        exact absurd (hc h) hlab
  · constructor
    · intro _ he
      exact absurd he h
    · intro _
      exact ⟨specEntityKeep e, entKeep_of_ne e h⟩

/-- The entity loop succeeds under the per-entity condition and then equals
the claim-side filter-map. -/
theorem keptEntities_of_ne (ents : List Ent) (h : ∀ e ∈ ents, e.text ≠ "") :
    keptEntities ents = Except.ok ((ents.filter specEntityKeep).map Ent.text) := by
  induction ents with
  | nil => rfl
  | cons e es ih =>
    have he : entKeep e = Except.ok (specEntityKeep e) :=
      entKeep_of_ne e (h e (List.mem_cons_self e es))
    have ihh := ih (fun x hx => h x (List.mem_cons_of_mem e hx))
    simp only [keptEntities, he, ihh, Except.bind, Except.pure, bind, pure]
    cases hb : specEntityKeep e <;> simp [List.filter_cons, hb]

/-- The entity loop succeeds exactly when every empty-text entity is
labelled CONDITION. -/
theorem keptEntities_ok_iff (ents : List Ent) :
    (∃ l, keptEntities ents = Except.ok l)
      ↔ (∀ e ∈ ents, e.text = "" → e.label = "CONDITION") := by
  induction ents with
  | nil => exact ⟨fun _ => by simp, fun _ => ⟨[], rfl⟩⟩
  | cons e es ih =>
    constructor
    · rintro ⟨l, hl⟩ x hx
      simp only [keptEntities, bind, Except.bind] at hl
      rcases hke : entKeep e with u | b
      · rw [hke] at hl; simp at hl
      · rw [hke] at hl
        rcases hkes : keptEntities es with u2 | l2
        · rw [hkes] at hl; simp at hl
        · rcases List.mem_cons.mp hx with hxe | hxes
          · subst hxe
            exact (entKeep_ok_iff x).mp ⟨b, hke⟩
          · exact (ih.mp ⟨l2, hkes⟩) x hxes
    · intro hall
      have he := (entKeep_ok_iff e).mpr (hall e (List.mem_cons_self e es))
      have hes := ih.mpr (fun x hx => hall x (List.mem_cons_of_mem e hx))
      rcases he with ⟨b, hb⟩
      rcases hes with ⟨l, hl⟩
      exact ⟨if b then e.text :: l else l, by
        simp only [keptEntities, bind, Except.bind, hb, hl]⟩

/-- C3: for every analyzer output whose entities all carry non-empty text,
extract_medical_keywords returns exactly the entities kept by the filter
(organization/place class with a fully upper-case token, or category
CONDITION, or at most 3 tokens with an upper-case first character),
followed by the noun phrases containing a token case-insensitively in the
fixed vocabulary, in production order, deduplicated keeping each term at
its first occurrence. -/
theorem extract_matches_spec (ents : List Ent) (chunks : List Chunk)
    (h : ∀ e ∈ ents, e.text ≠ "") :
    extract_medical_keywords ents chunks = Except.ok (specExtract ents chunks) := by
  unfold extract_medical_keywords specExtract
  rw [keptEntities_of_ne ents h]
  rfl

/-- C3 witness: the characterization instantiated on a concrete analyzer
output with duplicates, an acronym entity, a CONDITION entity and a
vocabulary noun chunk. -/
theorem extract_matches_spec_witness :
    extract_medical_keywords entsW chunksW = Except.ok (specExtract entsW chunksW) :=
  extract_matches_spec entsW chunksW (by decide)

/-- C10 counterexample: the error branch of the first-character test is not
reached on an input that violates the non-empty-text precondition (an
empty-text entity labelled CONDITION), so unreachability is not exactly the
precondition. -/
theorem extract_total_iff_cex :
    ¬ (∀ (ents : List Ent) (chunks : List Chunk),
        (∃ l, extract_medical_keywords ents chunks = Except.ok l)
          ↔ (∀ e ∈ ents, e.text ≠ "")) := by
  intro h
  have h2 := (h entsC10 []).mp ⟨[""], rfl⟩
  exact h2 ⟨"", "CONDITION"⟩ (by decide) rfl

/-- C10 (amended): extract_medical_keywords is total (returns ok) exactly
when every entity with empty text is labelled CONDITION; in particular the
claimed precondition (all entity texts non-empty) is sufficient but not
necessary for the error branch of the ent.text[0] test to be unreachable. -/
theorem extract_total_iff (ents : List Ent) (chunks : List Chunk) :
    (∃ l, extract_medical_keywords ents chunks = Except.ok l)
      ↔ (∀ e ∈ ents, e.text = "" → e.label = "CONDITION") := by
  unfold extract_medical_keywords
  constructor
  · rintro ⟨l, hl⟩
    simp only [bind, Except.bind] at hl
    rcases hke : keptEntities ents with u | l2
    · rw [hke] at hl; simp at hl
    · exact (keptEntities_ok_iff ents).mp ⟨l2, hke⟩
  · intro hall
    rcases (keptEntities_ok_iff ents).mpr hall with ⟨l2, hl2⟩
    exact ⟨dedupFrom [] (l2 ++ (chunks.filter chunkKeep).map Chunk.text), by
      simp only [bind, Except.bind, hl2]⟩

/-- C10 witness: the amended equivalence applied at a concrete input with
no empty-text entity. -/
theorem extract_total_iff_witness :
    ∃ l, extract_medical_keywords [Ent.mk "BP" "ORG"] [] = Except.ok l :=
  (extract_total_iff [Ent.mk "BP" "ORG"] []).mpr (by decide)

/-- C9: generate_summary is total on term sequences: the empty list yields
the fixed no-terms sentence, and every non-empty list yields the fixed
template with the terms comma-joined in the given order, with no re-sorting
and no deduplication. -/
theorem generate_summary_spec :
    generate_summary [] = "No specific medical terms were identified in the input."
    ∧ ∀ keywords : List String, keywords ≠ [] →
        generate_summary keywords =
          "Based on the analysis, the key medical conditions and symptoms include: "
            ++ pyJoin ", " keywords ++ "." := by
  refine ⟨rfl, ?_⟩
  intro ks h
  cases ks with
  | nil => exact absurd rfl h
  | cons a as => rfl

/-- C9 witness: the template at a concrete two-term list, both terms
comma-joined in order. -/
theorem generate_summary_spec_witness :
    generate_summary ["fever", "cough"] =
      "Based on the analysis, the key medical conditions and symptoms include: fever, cough." := by
  have h := generate_summary_spec.2 ["fever", "cough"] (by decide)
  rw [h]
  decide

/-!
Embedding of the store layer of src/medical3.py.  Tables are lists of rows;
AUTOINCREMENT ids are next-id counters; datetime.now() is an explicit Nat
argument.  A column value a row was inserted without (the effective schema
of init_db, lines 209-236, has no status, doctor_notes or last_modified
column and no default for them) is modelled as none.  The password hash
(hashlib.sha256 hexdigest, lines 13-15 and 239-240) is an opaque function
parameter hp.
-/

/-- A row of the users table as create_user / verify_user use it. -/
structure UserRow where
  id : Nat
  username : String
  password : String
  role : String
deriving DecidableEq

/-- A row of the doctors table as create_doctor uses it. -/
structure DoctorRow where
  id : Nat
  user_id : Nat
  full_name : String
  specialization : String
deriving DecidableEq

/-- A row of the doctor_patient table as assign_doctor uses it. -/
structure AssignmentRow where
  doctor_id : Nat
  patient_id : Nat
  assignment_date : Nat
deriving DecidableEq

/-- A row of the analysis_history table.  status, doctor_notes and
last_modified are Option because the effective insert (save_analysis,
lines 470-479) and the effective schema (init_db, lines 223-233) supply no
value for them. -/
structure AnalysisRow where
  id : Nat
  user_id : Nat
  analysis_date : Nat
  medical_terms : String
  summary : String
  recommendations : String
  status : Option String
  doctor_notes : Option String
  last_modified : Option Nat
deriving DecidableEq

/-- The persisted database state. -/
structure DB where
  users : List UserRow
  doctors : List DoctorRow
  doctor_patient : List AssignmentRow
  analysis_history : List AnalysisRow
  nextUserId : Nat
  nextDoctorId : Nat
  nextAnalysisId : Nat
deriving DecidableEq

/-- A freshly initialised database (init_db on a new file). -/
def emptyDB : DB :=
  { users := [], doctors := [], doctor_patient := [], analysis_history := [],
    nextUserId := 1, nextDoctorId := 1, nextAnalysisId := 1 }

/-- create_user of src/medical3.py lines 243-254: INSERT into users; the
UNIQUE constraint on username makes a duplicate raise IntegrityError,
returned as none with the state unchanged; otherwise the new rowid. -/
def create_user (hp : String → String) (db : DB)
    (username password role : String) : Option Nat × DB :=
  if db.users.any (fun u => u.username == username) then (none, db)
  else
    (some db.nextUserId,
     { db with
         users := db.users ++ [⟨db.nextUserId, username, hp password, role⟩],
         nextUserId := db.nextUserId + 1 })

/-- create_doctor of src/medical3.py lines 256-267: INSERT into doctors;
the UNIQUE constraint on user_id makes a duplicate raise IntegrityError,
returned as false with the state unchanged. -/
def create_doctor (db : DB) (user_id : Nat)
    (full_name specialization : String) : Bool × DB :=
  if db.doctors.any (fun d => d.user_id == user_id) then (false, db)
  else
    (true,
     { db with
         doctors := db.doctors ++ [⟨db.nextDoctorId, user_id, full_name, specialization⟩],
         nextDoctorId := db.nextDoctorId + 1 })

/-- verify_user of src/medical3.py lines 269-277: fetch the row of the
username (unique, so the first match) and compare the stored hash with the
hash of the supplied password; None on absent username or hash mismatch,
with no distinction between the two. -/
def verify_user (hp : String → String) (db : DB)
    (username password : String) : Option (Nat × String) :=
  match db.users.find? (fun u => u.username == username) with
  | some u => if u.password == hp password then some (u.id, u.role) else none
  | none => none

/-- assign_doctor of src/medical3.py lines 279-290: INSERT into
doctor_patient; the composite primary key makes a duplicate pair raise
IntegrityError, returned as false. -/
def assign_doctor (db : DB) (doctor_id patient_id now : Nat) : Bool × DB :=
  if db.doctor_patient.any
      (fun a => a.doctor_id == doctor_id && a.patient_id == patient_id) then
    (false, db)
  else
    (true,
     { db with doctor_patient := db.doctor_patient ++ [⟨doctor_id, patient_id, now⟩] })

/-- get_doctor_patients of src/medical3.py lines 292-303: users joined with
doctor_patient on patient_id, restricted to the doctor. -/
def get_doctor_patients (db : DB) (doctor_id : Nat) : List (Nat × String) :=
  (db.users.filter (fun u =>
      db.doctor_patient.any
        (fun a => a.patient_id == u.id && a.doctor_id == doctor_id))).map
    (fun u => (u.id, u.username))

/-- get_doctor_id of src/medical3.py lines 305-311. -/
def get_doctor_id (db : DB) (user_id : Nat) : Option Nat :=
  match db.doctors.find? (fun d => d.user_id == user_id) with
  | some d => some d.id
  | none => none

/-- update_analysis_status of src/medical3.py lines 313-322: an
unconditional UPDATE of status, doctor_notes and last_modified on the rows
whose id matches; it takes no doctor identity, checks no assignment, and a
non-matching id simply updates nothing. -/
def update_analysis_status (db : DB) (analysis_id : Nat)
    (status doctor_notes : String) (now : Nat) : DB :=
  { db with
      analysis_history := db.analysis_history.map (fun r =>
        if r.id == analysis_id then
          { r with status := some status, doctor_notes := some doctor_notes,
                   last_modified := some now }
        else r) }

/-- The save_analysis defined first in src/medical3.py (lines 189-199): its
INSERT lists the status column and supplies the literal value pending. -/
def save_analysis_first (db : DB) (user_id : Nat)
    (medical_terms summary recommendations : String) (now : Nat) : DB :=
  { db with
      analysis_history := db.analysis_history ++
        [⟨db.nextAnalysisId, user_id, now, medical_terms, summary,
          recommendations, some "pending", none, none⟩],
      nextAnalysisId := db.nextAnalysisId + 1 }

/-- The effective save_analysis: the later definition at lines 470-479
shadows the earlier one, its INSERT lists no status column, and the
effective schema (init_db, lines 223-233) declares analysis_history without
a status column or default, so the stored row carries no status. -/
def save_analysis (db : DB) (user_id : Nat)
    (medical_terms summary recommendations : String) (now : Nat) : DB :=
  { db with
      analysis_history := db.analysis_history ++
        [⟨db.nextAnalysisId, user_id, now, medical_terms, summary,
          recommendations, none, none, none⟩],
      nextAnalysisId := db.nextAnalysisId + 1 }

/-- A row of the result set of the effective get_user_history (lines
481-492): SELECT analysis_date, medical_terms, summary, recommendations. -/
structure HistoryRow where
  analysis_date : Nat
  medical_terms : String
  summary : String
  recommendations : String
deriving DecidableEq

/-- ORDER BY analysis_date DESC, modelled as an insertion sort on the
descending-date relation. -/
def orderByDateDesc (l : List AnalysisRow) : List AnalysisRow :=
  l.insertionSort (fun a b => b.analysis_date ≤ a.analysis_date)

/-- The effective get_user_history of src/medical3.py lines 481-492: the
rows of the user, most recent analysis_date first, projected to the four
selected columns. -/
def get_user_history (db : DB) (user_id : Nat) : List HistoryRow :=
  (orderByDateDesc (db.analysis_history.filter (fun r => r.user_id == user_id))).map
    (fun r => ⟨r.analysis_date, r.medical_terms, r.summary, r.recommendations⟩)

/-- Outcome of the registration handler. -/
inductive RegResult where
  | passwordMismatch
  | weakPassword
  | usernameTaken
  | patientRegistered (uid : Nat)
  | doctorRegistered (uid : Nat)
  | doctorProfileFailed (uid : Nat)
deriving DecidableEq

/-- The registration branch of main in src/medical3.py lines 436-453:
confirm-password check, then the length-6 password check, then create_user,
and for a doctor registration create_doctor afterwards; a create_doctor
failure only reports an error, it does not undo the committed account. -/
def register_flow (hp : String → String) (db : DB)
    (new_username new_password confirm_password : String)
    (isDoctor : Bool) (full_name specialization : String) : RegResult × DB :=
  if new_password ≠ confirm_password then (RegResult.passwordMismatch, db)
  else if new_password.length < 6 then (RegResult.weakPassword, db)
  else
    match create_user hp db new_username new_password
        (if isDoctor then "doctor" else "patient") with
    | (some uid, db1) =>
      if isDoctor then
        match create_doctor db1 uid full_name specialization with
        | (true, db2) => (RegResult.doctorRegistered uid, db2)
        | (false, db2) => (RegResult.doctorProfileFailed uid, db2)
      else (RegResult.patientRegistered uid, db1)
    | (none, db1) => (RegResult.usernameTaken, db1)

/-- Identity function standing in for the opaque password hash in concrete
witness runs. -/
def hashId : String → String := fun s => s

/-- Concrete state for C1 and C5: one doctor account (user 1, doctor row 1),
one patient (user 2), one pending analysis of the patient, and an empty
doctor_patient table, so no doctor is assigned to the patient. -/
def dbC1 : DB :=
  { users := [⟨1, "drbob", "h1", "doctor"⟩, ⟨2, "alice", "h2", "patient"⟩],
    doctors := [⟨1, 1, "Dr Bob", "gp"⟩],
    doctor_patient := [],
    analysis_history := [⟨1, 2, 10, "fever", "sum", "rec", some "pending", none, none⟩],
    nextUserId := 3, nextDoctorId := 2, nextAnalysisId := 2 }

/-- Concrete state for C2: the doctors table holds a stale row whose
user_id equals the id the next account will receive (SQLite does not
enforce the foreign key by default, so a dangling profile row is a
reachable persisted state). -/
def dbStale : DB :=
  { users := [], doctors := [⟨1, 1, "Ghost", "gp"⟩], doctor_patient := [],
    analysis_history := [], nextUserId := 1, nextDoctorId := 2, nextAnalysisId := 1 }

-- Helper lemmas for the store proofs.

/-- Searching an appended list skips a front part on which the predicate is
everywhere false. -/
theorem find?_append_none {α : Type} (p : α → Bool) (l1 l2 : List α)
    (h : ∀ x ∈ l1, p x = false) : (l1 ++ l2).find? p = l2.find? p := by
  induction l1 with
  | nil => rfl
  | cons a t ih =>
    have ha := h a (List.mem_cons_self a t)
    rw [List.cons_append, List.find?_cons_of_neg _ (by simp [ha])]
    exact ih (fun x hx => h x (List.mem_cons_of_mem a hx))

/-- Mapping the row update over rows none of which match the id is the
identity. -/
theorem map_update_id (aid : Nat) (status doctor_notes : String) (now : Nat) :
    ∀ l : List AnalysisRow, (∀ r ∈ l, r.id ≠ aid) →
      l.map (fun r =>
        if r.id == aid then
          { r with status := some status, doctor_notes := some doctor_notes,
                   last_modified := some now }
        else r) = l := by
  intro l
  induction l with
  | nil => intro _; rfl
  | cons a t ih =>
    intro hl
    have ha : (a.id == aid) = false := by
      simp [hl a (List.mem_cons_self a t)]
    simp only [List.map_cons, ha, Bool.false_eq_true, if_false]
    rw [ih (fun x hx => hl x (List.mem_cons_of_mem a hx))]

/-- C1: the review-update operation of the repository changes the record
even when no Assignment pairs the doctor with the owning patient: in dbC1
the doctor_patient table is empty (the doctor of the state has no assigned
patients), yet update_analysis_status — which takes no doctor identity and
checks no assignment — switches the patient record to approved instead of
failing with an authorization error. -/
theorem update_without_assignment_bug :
    dbC1.doctor_patient = []
    ∧ get_doctor_patients dbC1 1 = []
    ∧ (update_analysis_status dbC1 1 "approved" "n" 11).analysis_history.map
        AnalysisRow.status = [some "approved"] :=
  ⟨rfl, rfl, rfl⟩

/-- C4: the record created by the effective save_analysis carries no status
at all — not pending — because the later definition (lines 470-479) shadows
the status-setting one (lines 189-199) and the effective schema has no
status default; the shadowed first definition would have stored pending. -/
theorem save_analysis_status_bug :
    (save_analysis emptyDB 1 "fever" "sum" "rec" 0).analysis_history.map
        AnalysisRow.status = [none]
    ∧ (save_analysis_first emptyDB 1 "fever" "sum" "rec" 0).analysis_history.map
        AnalysisRow.status = [some "pending"] :=
  ⟨rfl, rfl⟩

/-- C5 counterexample: a status string outside pending/approved/disapproved
is not rejected with InvalidStatus; update_analysis_status writes it
verbatim and the record changes. -/
theorem update_invalid_status_cex :
    (update_analysis_status dbC1 1 "bogus" "n" 12).analysis_history.map
        AnalysisRow.status = [some "bogus"]
    ∧ ¬ ("bogus" = "pending" ∨ "bogus" = "approved" ∨ "bogus" = "disapproved") :=
  ⟨rfl, by decide⟩

/-- C5 (amended): update_analysis_status is an unconditional UPDATE: an
analysisId matching no record leaves the store unchanged and raises no
error (instead of failing with UnknownAnalysis), any newStatus string is
accepted and written verbatim (instead of InvalidStatus on unrecognized
strings), and every matched record gets doctor_notes and last_modified set,
the latter to the operation time. -/
theorem update_analysis_status_spec (db : DB) (aid : Nat)
    (status notes : String) (now : Nat) :
    ((∀ r ∈ db.analysis_history, r.id ≠ aid) →
        update_analysis_status db aid status notes now = db)
    ∧ ∀ r ∈ (update_analysis_status db aid status notes now).analysis_history,
        r.id = aid →
          r.status = some status ∧ r.doctor_notes = some notes
            ∧ r.last_modified = some now := by
  constructor
  · intro h
    unfold update_analysis_status
    rw [map_update_id aid status notes now db.analysis_history h]
  · intro r hr hid
    unfold update_analysis_status at hr
    simp only [List.mem_map] at hr
    obtain ⟨s, hs, rfl⟩ := hr
    cases hb : (s.id == aid) with
    | true => simp [hb]
    | false =>
      simp only [hb, Bool.false_eq_true, if_false] at hid
      rw [beq_eq_false_iff_ne] at hb
      exact absurd hid hb

/-- C5 witness: the no-match branch of the amended contract at a concrete
state: id 99 resolves to no record of dbC1 and the update leaves the store
unchanged. -/
theorem update_analysis_status_spec_witness :
    update_analysis_status dbC1 99 "approved" "ok" 12 = dbC1 :=
  (update_analysis_status_spec dbC1 99 "approved" "ok" 12).1 (by decide)

/-- The descending-date relation of ORDER BY analysis_date DESC is total. -/
instance : IsTotal AnalysisRow (fun a b => b.analysis_date ≤ a.analysis_date) :=
  ⟨fun a b => Nat.le_total b.analysis_date a.analysis_date⟩

/-- The descending-date relation of ORDER BY analysis_date DESC is
transitive. -/
instance : IsTrans AnalysisRow (fun a b => b.analysis_date ≤ a.analysis_date) :=
  ⟨fun _ _ _ hab hbc => Nat.le_trans hbc hab⟩

/-- C6: get_user_history returns the patient's records most recent first:
its output is always sorted by descending analysis_date, and three records
inserted for one patient at strictly increasing timestamps come back newest
to oldest. -/
theorem history_most_recent_first :
    (∀ (db : DB) (uid : Nat),
        (get_user_history db uid).Pairwise
          (fun a b => b.analysis_date ≤ a.analysis_date))
    ∧ ∀ (db : DB) (uid t1 t2 t3 : Nat) (m1 s1 r1 m2 s2 r2 m3 s3 r3 : String),
        db.analysis_history.filter (fun r => r.user_id == uid) = [] →
        t1 < t2 → t2 < t3 →
        get_user_history
          (save_analysis (save_analysis (save_analysis db uid m1 s1 r1 t1)
            uid m2 s2 r2 t2) uid m3 s3 r3 t3) uid
          = [⟨t3, m3, s3, r3⟩, ⟨t2, m2, s2, r2⟩, ⟨t1, m1, s1, r1⟩] := by
  constructor
  · intro db uid
    unfold get_user_history orderByDateDesc
    rw [List.pairwise_map]
    exact List.sorted_insertionSort
      (fun a b => b.analysis_date ≤ a.analysis_date)
      (db.analysis_history.filter (fun r => r.user_id == uid))
  · intro db uid t1 t2 t3 m1 s1 r1 m2 s2 r2 m3 s3 r3 h0 h12 h23
    have hn32 : ¬ (t3 ≤ t2) := Nat.not_le.mpr h23
    have hn31 : ¬ (t3 ≤ t1) := Nat.not_le.mpr (Nat.lt_trans h12 h23)
    have hn21 : ¬ (t2 ≤ t1) := Nat.not_le.mpr h12
    unfold get_user_history orderByDateDesc save_analysis
    simp only [List.filter_append, h0, List.nil_append, List.filter_cons,
      beq_self_eq_true, if_true, List.filter_nil, List.insertionSort,
      List.orderedInsert]
    simp [hn32, hn31, hn21]

/-- C6 witness: the three-insert scenario at concrete timestamps 1 < 2 < 3
on the fresh database. -/
theorem history_most_recent_first_witness :
    get_user_history
      (save_analysis (save_analysis (save_analysis emptyDB 7 "a" "b" "c" 1)
        7 "d" "e" "f" 2) 7 "g" "h" "i" 3) 7
      = [⟨3, "g", "h", "i"⟩, ⟨2, "d", "e", "f"⟩, ⟨1, "a", "b", "c"⟩] :=
  history_most_recent_first.2 emptyDB 7 1 2 3 "a" "b" "c" "d" "e" "f" "g" "h" "i"
    rfl (by decide) (by decide)

/-- C7: after a successful create_user the stored account authenticates
with the registered password and comes back with the registered role; any
password whose hash differs from the registered one is rejected; and any
username with no account row is rejected; both failures are the same bare
None, revealing nothing about which check failed. -/
theorem register_authenticate_roundtrip (hp : String → String) (db : DB)
    (u p role : String) (uid : Nat) (db2 : DB)
    (h : create_user hp db u p role = (some uid, db2)) :
    verify_user hp db2 u p = some (uid, role)
    ∧ (∀ pw, hp pw ≠ hp p → verify_user hp db2 u pw = none)
    ∧ ∀ v q, (∀ usr ∈ db2.users, usr.username ≠ v) →
        verify_user hp db2 v q = none := by
  unfold create_user at h
  cases hcond : db.users.any (fun x => x.username == u) with
  | true =>
    rw [hcond] at h
    simp at h
  | false =>
    rw [hcond] at h
    simp only [Bool.false_eq_true, if_false, Prod.mk.injEq, Option.some.inj] at h
    obtain ⟨h1, h2⟩ := h
    have huid : uid = db.nextUserId := (Option.some.inj h1).symm
    have hall : ∀ x ∈ db.users, (x.username == u) = false := by
      rw [List.any_eq_false] at hcond
      intro x hx
      simpa using hcond x hx
    have husers : db2.users =
        db.users ++ [⟨db.nextUserId, u, hp p, role⟩] := by
      rw [← h2]
    refine ⟨?_, ?_, ?_⟩
    · unfold verify_user
      rw [husers, find?_append_none _ _ _ hall]
      simp [huid]
    · intro pw hne
      unfold verify_user
      rw [husers, find?_append_none _ _ _ hall]
      simp only [List.find?_cons, beq_self_eq_true]
      have : (hp p == hp pw) = false := beq_eq_false_iff_ne.mpr (fun hq => hne hq.symm)
      simp [this]
    · intro v q hv
      unfold verify_user
      have hnone : db2.users.find? (fun x => x.username == v) = none := by
        rw [List.find?_eq_none]
        intro x hx
        simp [hv x hx]
      rw [hnone]

/-- Concrete post-registration state for the C7 witness, built with the
identity hash. -/
def dbAlice : DB := (create_user hashId emptyDB "alice" "correct" "patient").2

/-- C7 witness: the round trip at the concrete registration of alice with
password correct and role patient; wrong rejects. -/
theorem register_authenticate_roundtrip_witness :
    verify_user hashId dbAlice "alice" "correct" = some (1, "patient")
    ∧ verify_user hashId dbAlice "alice" "wrong" = none
    ∧ verify_user hashId dbAlice "mallory" "correct" = none := by
  have h := register_authenticate_roundtrip hashId emptyDB "alice" "correct"
    "patient" 1 dbAlice rfl
  exact ⟨h.1, h.2.1 "wrong" (by decide), h.2.2 "mallory" "correct" (by decide)⟩

/-- C8: the registration error contract: a username already registered
fails the second time (the first registration having succeeded and
persisted), a password shorter than 6 characters is rejected before any
account is created (the state is returned unchanged), and a 6-character
password passes the length check and, on a free username, registers the
account. -/
theorem registration_error_contract (hp : String → String) :
    (∀ (db : DB) (u p : String) (uid : Nat) (db2 : DB),
        register_flow hp db u p p false "" ""
          = (RegResult.patientRegistered uid, db2) →
        register_flow hp db2 u p p false "" ""
          = (RegResult.usernameTaken, db2))
    ∧ (∀ (db : DB) (u p c fn sp : String) (d : Bool),
        p.length < 6 → p = c →
        register_flow hp db u p c d fn sp = (RegResult.weakPassword, db))
    ∧ ∀ (db : DB) (u p : String),
        p.length = 6 → (∀ usr ∈ db.users, usr.username ≠ u) →
        register_flow hp db u p p false "" "" =
          (RegResult.patientRegistered db.nextUserId,
           { db with
               users := db.users ++ [⟨db.nextUserId, u, hp p, "patient"⟩],
               nextUserId := db.nextUserId + 1 }) := by
  refine ⟨?_, ?_, ?_⟩
  · intro db u p uid db2 hsucc
    unfold register_flow at hsucc ⊢
    rw [if_neg (by simp)] at hsucc ⊢
    by_cases hlen : p.length < 6
    · rw [if_pos hlen] at hsucc
      simp at hsucc
    · rw [if_neg hlen] at hsucc ⊢
      rcases hcu : create_user hp db u p (if false = true then "doctor" else "patient")
        with ⟨o, db1⟩
      rw [hcu] at hsucc
      cases o with
      | none => simp at hsucc
      | some uid2 =>
        simp only [Bool.false_eq_true, if_false, Prod.mk.injEq,
          RegResult.patientRegistered.injEq] at hsucc
        obtain ⟨hu, hdb⟩ := hsucc
        subst hdb
        unfold create_user at hcu
        cases hcond : db.users.any (fun x => x.username == u) with
        | true =>
          rw [hcond] at hcu
          simp at hcu
        | false =>
          rw [hcond] at hcu
          simp only [Bool.false_eq_true, if_false, Prod.mk.injEq] at hcu
          obtain ⟨_, hdb1⟩ := hcu
          have hany2 : db1.users.any (fun x => x.username == u) = true := by
            rw [← hdb1]
            simp
          unfold create_user
          rw [hany2]
          simp
  · intro db u p c fn sp d hlen hpc
    subst hpc
    simp [register_flow, hlen]
  · intro db u p hlen husr
    have hany : db.users.any (fun x => x.username == u) = false := by
      rw [List.any_eq_false]
      intro x hx
      simp [husr x hx]
    have hnl : ¬ (p.length < 6) := by omega
    simp [register_flow, create_user, hany, hnl]

/-- Concrete post-registration state for the C8 witness: bob registered
with a 6-character password on the fresh database. -/
def dbBob : DB := (register_flow hashId emptyDB "bob" "secret" "secret" false "" "").2

/-- C8 witness: a 5-character password is rejected leaving the state
unchanged, a 6-character password on a free username registers, and the
same username a second time fails. -/
theorem registration_error_contract_witness :
    register_flow hashId emptyDB "alice" "abcde" "abcde" false "" ""
        = (RegResult.weakPassword, emptyDB)
    ∧ register_flow hashId emptyDB "bob" "secret" "secret" false "" ""
        = (RegResult.patientRegistered 1,
           { emptyDB with
               users := [⟨1, "bob", hashId "secret", "patient"⟩],
               nextUserId := 2 })
    ∧ register_flow hashId dbBob "bob" "secret" "secret" false "" ""
        = (RegResult.usernameTaken, dbBob) := by
  have h := registration_error_contract hashId
  refine ⟨h.2.1 emptyDB "alice" "abcde" "abcde" "" "" false (by decide) rfl, ?_, ?_⟩
  · exact h.2.2 emptyDB "bob" "secret" (by decide) (by decide)
  · exact h.1 emptyDB "bob" "secret" 1 dbBob rfl

/-- C2 counterexample: on the stale state dbStale the doctor registration
commits the account first, the profile insert then fails (the doctors table
already holds a row with the new account id), and the flow only reports an
error: the doctor-role account persists although the registration failed,
so the registration is not atomic and an account is persisted on failure. -/
theorem doctor_registration_atomicity_cex :
    (register_flow hashId dbStale "drbob" "secret" "secret" true "Dr Bob" "gp").1
        = RegResult.doctorProfileFailed 1
    ∧ ((register_flow hashId dbStale "drbob" "secret" "secret" true "Dr Bob" "gp").2).users
        = [⟨1, "drbob", hashId "secret", "doctor"⟩]
    ∧ ((register_flow hashId dbStale "drbob" "secret" "secret" true "Dr Bob" "gp").2).doctors
        = [⟨1, 1, "Ghost", "gp"⟩] :=
  ⟨rfl, rfl, rfl⟩

/-- C2 (amended): doctor registration is sequential, not atomic: whenever
the flow ends in doctorProfileFailed, the final state still holds the
already-committed account with the requested username and role doctor, and
no profile row was added for it (the doctors table is unchanged). -/
theorem doctor_registration_not_atomic (hp : String → String) (db : DB)
    (u p fn sp : String) (uid : Nat) (db2 : DB)
    (h : register_flow hp db u p p true fn sp
        = (RegResult.doctorProfileFailed uid, db2)) :
    (⟨db.nextUserId, u, hp p, "doctor"⟩ : UserRow) ∈ db2.users
    ∧ uid = db.nextUserId
    ∧ db2.doctors = db.doctors := by
  unfold register_flow at h
  rw [if_neg (by simp)] at h
  by_cases hlen : p.length < 6
  · rw [if_pos hlen] at h
    simp at h
  · rw [if_neg hlen] at h
    rcases hcu : create_user hp db u p (if true = true then "doctor" else "patient")
      with ⟨o, db1⟩
    rw [hcu] at h
    cases o with
    | none => simp at h
    | some uid2 =>
      simp only [if_true] at h
      rcases hcd : create_doctor db1 uid2 fn sp with ⟨ok, db3⟩
      rw [hcd] at h
      cases ok with
      | true => simp at h
      | false =>
        simp only [Prod.mk.injEq, RegResult.doctorProfileFailed.injEq] at h
        obtain ⟨huid, hdb⟩ := h
        unfold create_user at hcu
        cases hcond : db.users.any (fun x => x.username == u) with
        | true =>
          rw [hcond] at hcu
          simp at hcu
        | false =>
          rw [hcond] at hcu
          simp only [Bool.false_eq_true, if_false, if_true, Prod.mk.injEq] at hcu
          obtain ⟨hu2, hdb1⟩ := hcu
          have hu2n : uid2 = db.nextUserId := (Option.some.inj hu2).symm
          unfold create_doctor at hcd
          cases hcond2 : db1.doctors.any (fun d => d.user_id == uid2) with
          | true =>
            rw [hcond2] at hcd
            simp only [if_true, Prod.mk.injEq] at hcd
            obtain ⟨_, hdb3⟩ := hcd
            subst hdb
            rw [← hdb3, ← hdb1]
            refine ⟨by simp, huid.symm.trans hu2n, rfl⟩
          | false =>
            rw [hcond2] at hcd
            simp at hcd

/-- C2 witness: the amended statement instantiated on the stale state: the
doctors table is unchanged by the failing doctor registration. -/
theorem doctor_registration_not_atomic_witness :
    ((register_flow hashId dbStale "drbob" "secret77" "secret77" true "Dr Bob" "gp").2).doctors
      = dbStale.doctors :=
  (doctor_registration_not_atomic hashId dbStale "drbob" "secret77" "Dr Bob" "gp" 1 _ rfl).2.2
